import Mathlib

/-!
# Verification of the data-loader-firestore hierarchical document loader

Shallow embedding of `src/FirestoreCollectionLoader.ts`, `src/utils.ts` and
the `GenericConverter` (the variant that strips/injects the `_id`/`_path`
fields), together with a model of the batching, memoizing cache that the
loader delegates to (the `dataloader` dependency, whose source is not part
of this repository; it is modelled from the specification, section 4.2).

Document data is modelled as an association list of field name/value pairs
with JavaScript object-update semantics (`setField` overrides, later write
wins).  The document store is an association list keyed by the full
slash-joined document path.  Strings are handled at the character-list
level so that every definition evaluates by kernel reduction.
-/

namespace DataLoaderFirestore

/-- Field name/value pairs of one document, modelling a JS object.
Field values are modelled as strings; only field identity matters here. -/
abbrev DocData := List (String × String)

/-- JS property read: first matching key. -/
def getField : DocData → String → Option String
  | [], _ => none
  | (k', v) :: rest, k => if k = k' then some v else getField rest k

/-- JS property write `{...d, k: v}`: removes any existing binding of `k`
and appends the new one (the field set is what matters). -/
def setField (d : DocData) (k v : String) : DocData :=
  d.filter (fun p => p.1 ≠ k) ++ [(k, v)]

/-- JS `delete d[k]`. -/
def removeField (d : DocData) (k : String) : DocData :=
  d.filter (fun p => p.1 ≠ k)

/-- The set of field names of a document (as the list of its keys). -/
def fieldKeys (d : DocData) : List String := d.map Prod.fst

/-- JS `String.prototype.split("/")` at the character level.
`splitSlashAux cs acc` processes remaining characters `cs` with the
(reversed) characters of the current segment in `acc`. -/
def splitSlashAux : List Char → List Char → List String
  | [], acc => [String.mk acc.reverse]
  | c :: cs, acc =>
    if c = '/' then String.mk acc.reverse :: splitSlashAux cs []
    else splitSlashAux cs (c :: acc)

/-- JS `key.split("/")`. -/
def splitSlash (s : String) : List String := splitSlashAux s.data []

/-- JS `segments.join("/")`. -/
def joinSlash : List String → String
  | [] => ""
  | [s] => s
  | s :: rest => s ++ "/" ++ joinSlash rest

/-- JS `name.includes("/")` (the delimiter is a single character). -/
def hasSlash (s : String) : Bool := s.data.contains '/'

/-- The error classes the loader raises synchronously, identified the way
the source identifies them: by the `Error`'s `name`/message.
`invalidDocumentNames` is the error named `InvalidDocumentNamesError`
(the spec's `DocumentPathLengthMismatch`), `invalidCollectionNames` the
one named `InvalidCollectionNamesError` (`CollectionPathLengthMismatch`). -/
inductive LoaderErr where
  | emptyCollectionNames
  | slashInCollectionName
  | emptyDocNames
  | slashInDocName
  | invalidDocumentNames
  | invalidCollectionNames
  deriving DecidableEq, Repr

deriving instance DecidableEq for Except

/-- Embeds `checkValidDocumentSegments` from `src/utils.ts`: the document-name
list must have exactly the template's length, else the error named
`InvalidDocumentNamesError` is thrown. -/
def checkValidDocumentSegments (collectionNames docNames : List String) :
    Except LoaderErr Unit :=
  if docNames.length ≠ collectionNames.length then .error .invalidDocumentNames
  else .ok ()

/-- Embeds `checkValidCollectionSegments` from `src/utils.ts`: the document-name
list must have exactly one less element than the template, else the error
named `InvalidCollectionNamesError` is thrown. -/
def checkValidCollectionSegments (collectionNames docNames : List String) :
    Except LoaderErr Unit :=
  if docNames.length ≠ collectionNames.length - 1 then .error .invalidCollectionNames
  else .ok ()

/-- Embeds `getDocSegments` from `FirestoreCollectionLoader`: for each index
`i < docNames.length` it pushes `collectionNames[i], docNames[i]`; an
out-of-range template read is JavaScript's `undefined`. -/
def getDocSegments : List String → List String → List String
  | _, [] => []
  | c :: cs, n :: ns => c :: n :: getDocSegments cs ns
  | [], n :: ns => "undefined" :: n :: getDocSegments [] ns

/-- Loop body of `getCollectionSegments`: for each `i < docNames.length`
pushes `docNames[i], collectionNames[i+1]` (`cs` already starts at the
template's second element). -/
def getCollectionSegmentsAux : List String → List String → List String
  | _, [] => []
  | c :: cs, n :: ns => n :: c :: getCollectionSegmentsAux cs ns
  | [], n :: ns => n :: "undefined" :: getCollectionSegmentsAux [] ns

/-- Embeds `getCollectionSegments` from `FirestoreCollectionLoader`: starts with
the first collection name, then interleaves document names with the
following collection names. -/
def getCollectionSegments (collectionNames docNames : List String) : List String :=
  collectionNames.headD "undefined" :: getCollectionSegmentsAux collectionNames.tail docNames

/-- Embeds `getDocNamesFromSegments` from `FirestoreCollectionLoader`: every
element at odd index (1, 3, 5, …). -/
def getDocNamesFromSegments : List String → List String
  | _ :: d :: rest => d :: getDocNamesFromSegments rest
  | _ => []

/-- Embeds `GenericConverter.toFirestore`: copies the record and deletes the two
injected fields `_id` and `_path` before the payload reaches the store. -/
def toFirestore (d : DocData) : DocData :=
  removeField (removeField d "_id") "_path"

/-- Embeds `GenericConverter.fromFirestore`: the stored fields with `_id` (the
snapshot's document id) and `_path` (the reference's full path) attached. -/
def fromFirestore (id path : String) (stored : DocData) : DocData :=
  setField (setField stored "_id" id) "_path" path

/-- First-match association-list lookup over string keys (JS object /
`Map.get` read semantics). -/
def alistGet {β : Type} : List (String × β) → String → Option β
  | [], _ => none
  | (k', v) :: rest, k => if k = k' then some v else alistGet rest k

/-- Modelled from the spec: one cache entry of the batching cache (the
`dataloader` dependency, not part of this repository's sources), spec §3:
`{Unrequested | Pending | Resolved(value) | Rejected(error)}`; `Unrequested`
is the absence of an entry. -/
inductive CEntry where
  | pending
  | resolved (v : DocData)
  | rejected (e : String)
  deriving DecidableEq, Repr

/-- Modelled from the spec: the state of the batching cache — the entry
map, the keys registered in the current coalescing window, and the log of
every key ever handed to the underlying batch fetch (`fetchLog` is the
observation recording underlying fetches; it is not program state). -/
structure CacheSt where
  entries : List (String × CEntry)
  pendingBatch : List String
  fetchLog : List String
  deriving DecidableEq, Repr

/-- A fresh cache: no entries, no pending keys, no fetches issued. -/
def initCache : CacheSt := ⟨[], [], []⟩

/-- Modelled from the spec (§4.2 `load`): if an entry exists in any state
the call is served from it and nothing is dispatched; otherwise the key
becomes `Pending` and is registered in the current coalescing window. -/
def loadOp (k : String) (c : CacheSt) : CacheSt :=
  if (alistGet c.entries k).isSome then c
  else { entries := (k, .pending) :: c.entries
         pendingBatch := c.pendingBatch ++ [k]
         fetchLog := c.fetchLog }

/-- Modelled from the spec (§4.2 coalescing window): the dispatcher issues
a single underlying fetch with the full ordered list of newly requested
keys and distributes the outcome. The batch fetch of this repository
(`batchLoad`) settles wholesale, so a successful batch resolves each key
positionally and a failed batch rejects every key of the window; entries
are never evicted (§4.2), so rejections stay cached. An empty window
dispatches nothing. -/
def flushOp (fetch : List String → Except String (List DocData)) (c : CacheSt) : CacheSt :=
  if c.pendingBatch.isEmpty then c
  else
    match fetch c.pendingBatch with
    | .ok vs =>
      { entries := (c.pendingBatch.zip vs).map (fun kv => (kv.1, CEntry.resolved kv.2)) ++ c.entries
        pendingBatch := []
        fetchLog := c.fetchLog ++ c.pendingBatch }
    | .error e =>
      { entries := c.pendingBatch.map (fun k => (k, CEntry.rejected e)) ++ c.entries
        pendingBatch := []
        fetchLog := c.fetchLog ++ c.pendingBatch }

/-- Modelled from the spec (§4.2 `prime`): unconditionally installs a
`Resolved` entry for the key, overwriting any prior state; never fetches. -/
def primeOp (k : String) (v : DocData) (c : CacheSt) : CacheSt :=
  { entries := (k, .resolved v) :: c.entries
    pendingBatch := c.pendingBatch
    fetchLog := c.fetchLog }

/-- One cache-level event: a `load` request, a window flush against a
batch fetch function, or an out-of-band prime. -/
inductive COp where
  | load (k : String)
  | flush (fetch : List String → Except String (List DocData))
  | prime (k : String) (v : DocData)

/-- Applies one cache-level event. -/
def stepOp (c : CacheSt) : COp → CacheSt
  | .load k => loadOp k c
  | .flush fetch => flushOp fetch c
  | .prime k v => primeOp k v c

/-- Runs a sequence of cache-level events from a given state. -/
def runOps (ops : List COp) (c : CacheSt) : CacheSt := ops.foldl stepOp c

/-- An awaited `load`: registers the key, and if its promise is not yet
settled, flushes the coalescing window, then reads the entry. A cache hit
(`Resolved`/`Rejected`) is served without dispatching anything. -/
def loadAwait (fetch : List String → Except String (List DocData)) (k : String)
    (c : CacheSt) : Except String DocData × CacheSt :=
  let c1 := loadOp k c
  match alistGet c1.entries k with
  | some (.resolved v) => (.ok v, c1)
  | some (.rejected e) => (.error e, c1)
  | _ =>
    let c2 := flushOp fetch c1
    match alistGet c2.entries k with
    | some (.resolved v) => (.ok v, c2)
    | some (.rejected e) => (.error e, c2)
    | _ => (.error "stuck", c2)

/-- The internal invariant of the batching cache: no key is ever recorded
twice across the fetch log and the current window, and every such key has
an entry in the map. -/
def cacheInv (c : CacheSt) : Prop :=
  (c.fetchLog ++ c.pendingBatch).Nodup ∧
  ∀ k, k ∈ c.fetchLog ++ c.pendingBatch → (alistGet c.entries k).isSome

/-- The external document store: full slash-joined document path to the
stored fields. Reads are `alistGet`; a write replaces the binding. -/
abbrev Store := List (String × DocData)

/-- Persists a document at a path (replacing any previous binding). -/
def storeSet (st : Store) (path : String) (d : DocData) : Store :=
  (path, d) :: st.filter (fun p => p.1 ≠ path)

/-- Firestore's `set(data, {merge: true})`: the payload's fields written
over the document's existing fields, which are otherwise retained. -/
def mergeDoc (existing : Option DocData) (payload : DocData) : DocData :=
  match existing with
  | none => payload
  | some e => payload.foldl (fun acc kv => setField acc kv.1 kv.2) e

/-- The whole system: the loader's cache (exclusively owned by the
instance) and the external store. -/
structure SysState where
  cache : CacheSt
  store : Store
  deriving DecidableEq, Repr

/-- A fresh loader instance over a given store. -/
def initSys (st : Store) : SysState := ⟨initCache, st⟩

/-- One key of `batchLoad` (`FirestoreCollectionLoader.batchLoad`): splits
the cache key back into segments, recovers the document names, resolves
the document reference (`getDocRef` interleaves template and names; its
`id` is the last document name, its `path` the joined segments) and reads
it; a missing document rejects with `Document <key> does not exist.`, an
existing one resolves with the converted data (`fromFirestore`). -/
def batchLoadOne (collectionNames : List String) (store : Store) (key : String) :
    Except String DocData :=
  let docSegments := splitSlash key
  let docNames := getDocNamesFromSegments docSegments
  let segs := getDocSegments collectionNames docNames
  let path := joinSlash segs
  match alistGet store path with
  | none => .error ("Document " ++ key ++ " does not exist.")
  | some d => .ok (fromFirestore (docNames.getLastD "undefined") path d)

/-- Embeds `batchLoad`: one promise per key, settled jointly through
`Promise.all`, which rejects as a whole as soon as any position rejects
(`Except`'s `mapM`); only if every key resolves does it return the
positional list of documents. -/
def batchLoad (collectionNames : List String) (store : Store)
    (keys : List String) : Except String (List DocData) :=
  keys.mapM (batchLoadOne collectionNames store)

/-- Embeds `fetchDocById`: rejects an empty document-name list, then names
containing the delimiter, then a length mismatch
(`checkValidDocumentSegments`, the `InvalidDocumentNamesError` class),
re-checks the delimiter, and only then awaits `dataLoader.load` on the
joined segment key; any failure of the load is caught and mapped to
`none` (absent). Errors touch neither cache nor store. -/
def fetchDocById (collectionNames : List String) (docNames : List String)
    (s : SysState) : Except LoaderErr (Option DocData) × SysState :=
  if docNames.length = 0 then (.error .emptyDocNames, s)
  else if docNames.any (fun d => hasSlash d) then (.error .slashInDocName, s)
  else
    match checkValidDocumentSegments collectionNames docNames with
    | .error e => (.error e, s)
    | .ok _ =>
      if docNames.any (fun d => hasSlash d) then (.error .slashInDocName, s)
      else
        let key := joinSlash (getDocSegments collectionNames docNames)
        let r := loadAwait (batchLoad collectionNames s.store) key s.cache
        match r.1 with
        | .ok v => (.ok (some v), { s with cache := r.2 })
        | .error _ => (.ok none, { s with cache := r.2 })

/-- Embeds `fetchDocsByQuery`: rejects names containing the delimiter, then a
length mismatch (`checkValidCollectionSegments`); the query itself runs on
the external store adapter and is opaque to this layer, so the returned
snapshot — the ordered list of `(path, converted data)` pairs the store
reports — is a parameter. Each returned document is appended to the
result and primed into the cache under its own path, in snapshot order. -/
def fetchDocsByQuery (collectionNames : List String) (docNames : List String)
    (snap : List (String × DocData)) (s : SysState) :
    Except LoaderErr (List DocData) × SysState :=
  if docNames.any (fun d => hasSlash d) then (.error .slashInDocName, s)
  else
    match checkValidCollectionSegments collectionNames docNames with
    | .error e => (.error e, s)
    | .ok _ =>
      (.ok (snap.map (fun pd => pd.2)),
       { s with cache := snap.foldl (fun c pd => primeOp pd.1 pd.2 c) s.cache })

/-- The two-stage write-target resolution inside `createDoc` (after its
delimiter check): try the exact document (`checkValidDocumentSegments` /
`getDocRef`); on a caught error it re-throws unless the error is the
`InvalidDocumentNamesError` class, in which case it falls back to the
collection (`checkValidCollectionSegments` / `getCollectionRef().doc()`)
with the store-generated identifier `genId`. Returns the segments of the
resolved write target. -/
def createDocResolve (collectionNames docNames : List String) (genId : String) :
    Except LoaderErr (List String) :=
  match checkValidDocumentSegments collectionNames docNames with
  | .ok _ => .ok (getDocSegments collectionNames docNames)
  | .error e =>
    if e ≠ .invalidDocumentNames then .error e
    else
      match checkValidCollectionSegments collectionNames docNames with
      | .ok _ => .ok (getCollectionSegments collectionNames docNames ++ [genId])
      | .error e2 => .error e2

/-- Embeds `createDoc`: checks the delimiter (before the two-stage resolution, so
a violation propagates without any fallback), resolves the write target,
attaches `_id` (the reference's id, i.e. the last segment) and `_path`
(the full joined path) to the payload, writes it through the converter
(`toFirestore` strips both injected fields; `merge: !overwrite`), and
returns a fresh `fetchDocById` on the written path's document names. -/
def createDoc (collectionNames : List String) (genId : String) (data : DocData)
    (overwrite : Bool) (docNames : List String) (s : SysState) :
    Except LoaderErr (Option DocData) × SysState :=
  if docNames.any (fun d => hasSlash d) then (.error .slashInDocName, s)
  else
    match createDocResolve collectionNames docNames genId with
    | .error e => (.error e, s)
    | .ok segs =>
      let path := joinSlash segs
      let docId := segs.getLastD "undefined"
      let dataToWrite := setField (setField data "_id" docId) "_path" path
      let written := toFirestore dataToWrite
      let stored := if overwrite then written else mergeDoc (alistGet s.store path) written
      let s1 : SysState := { s with store := storeSet s.store path stored }
      fetchDocById collectionNames (getDocNamesFromSegments (splitSlash path)) s1

end DataLoaderFirestore

namespace DataLoaderFirestore

/-- C8: decomposing the interleaved document path built from a template `C`
and a same-length document-name list `D` recovers exactly `D`:
`getDocNamesFromSegments (getDocSegments C D) = D` for every non-empty,
delimiter-free template and delimiter-free `D` with `len D = len C`. -/
theorem docNames_roundtrip (C D : List String)
    (hne : 0 < C.length)
    (hCslash : C.all (fun c => !(hasSlash c)) = true)
    (hDslash : D.all (fun d => !(hasSlash d)) = true)
    (hlen : D.length = C.length) :
    getDocNamesFromSegments (getDocSegments C D) = D := by
  clear hne hCslash hDslash
  induction D generalizing C with
  | nil => cases C <;> rfl
  | cons d ds ih =>
    cases C with
    | nil => simp at hlen
    | cons c cs =>
      simp only [List.length_cons, Nat.add_right_cancel_iff] at hlen
      simp [getDocSegments, getDocNamesFromSegments, ih cs hlen]

/-- Witness for C8 at the template `["users", "posts"]` and the document
names `["jdoe", "post1"]`. -/
theorem docNames_roundtrip_witness :
    getDocNamesFromSegments (getDocSegments ["users", "posts"] ["jdoe", "post1"])
      = ["jdoe", "post1"] :=
  docNames_roundtrip ["users", "posts"] ["jdoe", "post1"]
    (by decide) (by decide) (by decide) (by decide)

theorem alistGet_isSome_append {β : Type} (xs ys : List (String × β)) (k : String)
    (h : (alistGet ys k).isSome) : (alistGet (xs ++ ys) k).isSome := by
  induction xs with
  | nil => simpa using h
  | cons p rest ih =>
    obtain ⟨a, b⟩ := p
    by_cases hk : k = a
    · simp [alistGet, hk]
    · simpa [alistGet, hk] using ih

theorem cacheInv_loadOp (k : String) (c : CacheSt) (h : cacheInv c) :
    cacheInv (loadOp k c) := by
  by_cases hs : (alistGet c.entries k).isSome
  · simpa [loadOp, hs] using h
  · have hk : k ∉ c.fetchLog ++ c.pendingBatch := fun hmem => hs (h.2 k hmem)
    refine ⟨?_, ?_⟩
    · simp only [loadOp, hs, Bool.false_eq_true, if_false]
      rw [← List.append_assoc]
      exact List.nodup_append.mpr
        ⟨h.1, List.nodup_singleton k, List.disjoint_singleton.mpr hk⟩
    · intro k' hmem
      simp only [loadOp, hs, Bool.false_eq_true, if_false] at hmem ⊢
      by_cases hk' : k' = k
      · simp [alistGet, hk']
      · have : k' ∈ c.fetchLog ++ c.pendingBatch := by
          rcases List.mem_append.mp hmem with h1 | h2
          · exact List.mem_append.mpr (Or.inl h1)
          · rcases List.mem_append.mp h2 with h3 | h4
            · exact List.mem_append.mpr (Or.inr h3)
            · exact absurd (List.mem_singleton.mp h4) hk'
        simpa [alistGet, hk'] using h.2 k' this

theorem cacheInv_flushOp (fetch : List String → Except String (List DocData))
    (c : CacheSt) (h : cacheInv c) : cacheInv (flushOp fetch c) := by
  by_cases he : c.pendingBatch.isEmpty
  · simpa [flushOp, he] using h
  · cases hf : fetch c.pendingBatch with
    | ok vs =>
      refine ⟨?_, ?_⟩
      · simpa [flushOp, he, hf] using h.1
      · intro k hmem
        simp only [flushOp, he, hf, Bool.false_eq_true, if_false, List.append_nil] at hmem ⊢
        exact alistGet_isSome_append _ _ _ (h.2 k hmem)
    | error e =>
      refine ⟨?_, ?_⟩
      · simpa [flushOp, he, hf] using h.1
      · intro k hmem
        simp only [flushOp, he, hf, Bool.false_eq_true, if_false, List.append_nil] at hmem ⊢
        exact alistGet_isSome_append _ _ _ (h.2 k hmem)

theorem cacheInv_primeOp (k : String) (v : DocData) (c : CacheSt) (h : cacheInv c) :
    cacheInv (primeOp k v c) := by
  refine ⟨h.1, ?_⟩
  intro k' hmem
  exact alistGet_isSome_append [(k, .resolved v)] _ _ (h.2 k' hmem)

theorem cacheInv_stepOp (c : CacheSt) (op : COp) (h : cacheInv c) :
    cacheInv (stepOp c op) := by
  cases op with
  | load k => exact cacheInv_loadOp k c h
  | flush fetch => exact cacheInv_flushOp fetch c h
  | prime k v => exact cacheInv_primeOp k v c h

theorem cacheInv_runOps (ops : List COp) (c : CacheSt) (h : cacheInv c) :
    cacheInv (runOps ops c) := by
  induction ops generalizing c with
  | nil => simpa [runOps] using h
  | cons op rest ih =>
    have : runOps (op :: rest) c = runOps rest (stepOp c op) := rfl
    rw [this]
    exact ih _ (cacheInv_stepOp c op h)

/-- C1: over every sequence of cache events on a fresh instance (loads for
a key repeated sequentially after it settled, or issued concurrently
within one coalescing window, flushes, primes), the underlying batch fetch
receives a given key at most once; and a later `load` of a key whose entry
is `Resolved` is served from the cached entry, returning its value with the
cache state untouched (no fetch). `fetchDocById` delegates to this cache
through `loadAwait` by definition. -/
theorem fetch_at_most_once_per_key :
    (∀ (ops : List COp) (k : String), ((runOps ops initCache).fetchLog.count k) ≤ 1) ∧
    (∀ (fetch : List String → Except String (List DocData)) (c : CacheSt)
       (k : String) (v : DocData),
       alistGet c.entries k = some (.resolved v) →
       loadAwait fetch k c = (.ok v, c)) := by
  constructor
  · intro ops k
    have hinv : cacheInv (runOps ops initCache) :=
      cacheInv_runOps ops initCache ⟨by simp [initCache], by simp [initCache]⟩
    have h1 : ((runOps ops initCache).fetchLog ++ (runOps ops initCache).pendingBatch).count k ≤ 1 :=
      List.nodup_iff_count_le_one.mp hinv.1 k
    calc ((runOps ops initCache).fetchLog.count k)
        ≤ ((runOps ops initCache).fetchLog ++ (runOps ops initCache).pendingBatch).count k := by
          simp [List.count_append]
      _ ≤ 1 := h1
  · intro fetch c k v h
    have hs : (alistGet c.entries k).isSome = true := by simp [h]
    simp [loadAwait, loadOp, hs, h]

/-- Witness for C1's cached-entry clause: a resolved entry for
`users/jdoe` is served back with no state change. -/
theorem fetch_at_most_once_per_key_witness :
    ((runOps [] initCache).fetchLog.count "users/jdoe") ≤ 1 ∧
    loadAwait (fun _ => .error "down") "users/jdoe"
        ⟨[("users/jdoe", .resolved [("firstName", "Jane")])], [], []⟩
      = (.ok [("firstName", "Jane")],
         ⟨[("users/jdoe", .resolved [("firstName", "Jane")])], [], []⟩) :=
  ⟨fetch_at_most_once_per_key.1 [] "users/jdoe",
   fetch_at_most_once_per_key.2 (fun _ => .error "down")
     ⟨[("users/jdoe", .resolved [("firstName", "Jane")])], [], []⟩
     "users/jdoe" [("firstName", "Jane")] (by decide)⟩

/-- C4: for every key `k`, value `v` and prior cache state (absent,
pending, resolved or rejected entry alike), `prime k v` installs a
`Resolved v` entry that overwrites the prior state of `k`, issues no
fetch (the fetch log is unchanged), and a subsequent `load k` returns `v`
with the state — in particular the fetch log — untouched. -/
theorem prime_overwrites_and_load_returns_it :
    ∀ (c : CacheSt) (k : String) (v : DocData)
      (fetch : List String → Except String (List DocData)),
      alistGet (primeOp k v c).entries k = some (.resolved v) ∧
      (primeOp k v c).fetchLog = c.fetchLog ∧
      loadAwait fetch k (primeOp k v c) = (.ok v, primeOp k v c) := by
  intro c k v fetch
  have h : alistGet (primeOp k v c).entries k = some (.resolved v) := by
    simp [primeOp, alistGet]
  refine ⟨h, rfl, ?_⟩
  have hs : (alistGet (primeOp k v c).entries k).isSome = true := by simp [h]
  simp [loadAwait, loadOp, hs, h]

theorem getField_append (xs ys : DocData) (k : String) :
    getField (xs ++ ys) k =
      match getField xs k with
      | some v => some v
      | none => getField ys k := by
  induction xs with
  | nil => simp [getField]
  | cons p rest ih =>
    obtain ⟨a, b⟩ := p
    by_cases hk : k = a
    · simp [getField, hk]
    · simp [getField, hk, ih]

theorem getField_filter_self (d : DocData) (k : String) :
    getField (d.filter (fun p => p.1 ≠ k)) k = none := by
  induction d with
  | nil => rfl
  | cons q rest ih =>
    obtain ⟨a, b⟩ := q
    by_cases ha : a = k
    · rw [List.filter_cons_of_neg (by simp [ha])]
      exact ih
    · rw [List.filter_cons_of_pos (by simp [ha])]
      have hk : k ≠ a := fun h => ha h.symm
      simpa [getField, hk] using ih

theorem getField_filter_ne (d : DocData) (k k' : String) (h : k ≠ k') :
    getField (d.filter (fun p => p.1 ≠ k')) k = getField d k := by
  induction d with
  | nil => rfl
  | cons q rest ih =>
    obtain ⟨a, b⟩ := q
    by_cases ha : a = k'
    · subst ha
      rw [List.filter_cons_of_neg (by simp)]
      rw [ih]
      simp [getField, h]
    · rw [List.filter_cons_of_pos (by simp [ha])]
      by_cases hk : k = a
      · simp [getField, hk]
      · simp only [getField, if_neg hk]
        exact ih

theorem getField_setField_self (d : DocData) (k v : String) :
    getField (setField d k v) k = some v := by
  simp only [setField]
  rw [getField_append, getField_filter_self]
  simp [getField]

theorem getField_setField_ne (d : DocData) (k k' v : String) (h : k ≠ k') :
    getField (setField d k' v) k = getField d k := by
  simp only [setField]
  rw [getField_append, getField_filter_ne d k k' h]
  cases hd : getField d k with
  | some v' => simp
  | none => simp [getField, h]

theorem getField_removeField_self (d : DocData) (k : String) :
    getField (removeField d k) k = none :=
  getField_filter_self d k

theorem getField_removeField_ne (d : DocData) (k k' : String) (h : k ≠ k') :
    getField (removeField d k') k = getField d k :=
  getField_filter_ne d k k' h

theorem createDocResolve_exact (cn names : List String) (genId : String)
    (h : names.length = cn.length) :
    createDocResolve cn names genId = .ok (getDocSegments cn names) := by
  simp [createDocResolve, checkValidDocumentSegments, h]

theorem createDocResolve_generated (cn names : List String) (genId : String)
    (h1 : names.length ≠ cn.length) (h2 : names.length = cn.length - 1) :
    createDocResolve cn names genId
      = .ok (getCollectionSegments cn names ++ [genId]) := by
  have h3 : ¬ (cn.length - 1 = cn.length) := by omega
  simp [createDocResolve, checkValidDocumentSegments, checkValidCollectionSegments,
    h1, h2, h3]

theorem createDocResolve_bad_length (cn names : List String) (genId : String)
    (h1 : names.length ≠ cn.length) (h2 : names.length ≠ cn.length - 1) :
    createDocResolve cn names genId = .error .invalidCollectionNames := by
  simp [createDocResolve, checkValidDocumentSegments, checkValidCollectionSegments, h1, h2]

theorem fetchDocById_store_eq (cn names : List String) (s : SysState) :
    (fetchDocById cn names s).2.store = s.store := by
  by_cases h0 : names.length = 0
  · simp [fetchDocById, h0]
  · by_cases hsl : names.any (fun d => hasSlash d) = true
    · simp [fetchDocById, h0, hsl]
    · cases hck : checkValidDocumentSegments cn names with
      | error e => simp [fetchDocById, h0, hsl, hck]
      | ok u =>
        cases u
        cases hr : (loadAwait (batchLoad cn s.store)
            (joinSlash (getDocSegments cn names)) s.cache).1 with
        | ok v => simp [fetchDocById, h0, hsl, hck, hr]
        | error e => simp [fetchDocById, h0, hsl, hck, hr]

/-- C5: for every store, every prior cache state, and every document-name
list of the template's length (template non-empty) with delimiter-free
names, `fetchDocById` never raises: whatever the underlying fetch does —
the document may be missing or the store failing arbitrarily — the result
is `.ok` (a record or absence). And whenever `fetchDocById` does raise,
the state is returned untouched: argument errors happen before any I/O. -/
theorem fetchById_never_raises_for_valid_args :
    ∀ (cn names : List String) (s : SysState),
      (0 < cn.length → names.length = cn.length →
        names.any (fun d => hasSlash d) = false →
        ∃ r, (fetchDocById cn names s).1 = .ok r) ∧
      (∀ e, (fetchDocById cn names s).1 = .error e →
        (fetchDocById cn names s).2 = s) := by
  intro cn names s
  constructor
  · intro h1 h2 h3
    have h0 : ¬ names.length = 0 := by omega
    have hck : checkValidDocumentSegments cn names = .ok () := by
      simp [checkValidDocumentSegments, h2]
    cases hr : (loadAwait (batchLoad cn s.store)
        (joinSlash (getDocSegments cn names)) s.cache).1 with
    | ok v => exact ⟨some v, by simp [fetchDocById, h0, h3, hck, hr]⟩
    | error e => exact ⟨none, by simp [fetchDocById, h0, h3, hck, hr]⟩
  · intro e he
    by_cases h0 : names.length = 0
    · simp [fetchDocById, h0]
    · by_cases hsl : names.any (fun d => hasSlash d) = true
      · simp [fetchDocById, h0, hsl]
      · cases hck : checkValidDocumentSegments cn names with
        | error e2 => simp [fetchDocById, h0, hsl, hck]
        | ok u =>
          exfalso
          cases u
          cases hr : (loadAwait (batchLoad cn s.store)
              (joinSlash (getDocSegments cn names)) s.cache).1 with
          | ok v => simp [fetchDocById, h0, hsl, hck, hr] at he
          | error e3 => simp [fetchDocById, h0, hsl, hck, hr] at he

/-- Witness for C5: on the template `["users"]` with the valid name
`"jdoe"` over an empty store the call returns `.ok` (here: absence), and
the zero-name error call returns with the state untouched. -/
theorem fetchById_never_raises_for_valid_args_witness :
    (∃ r, (fetchDocById ["users"] ["jdoe"] (initSys [])).1 = .ok r) ∧
    (fetchDocById ["users", "posts"] [] (initSys [])).2 = initSys [] :=
  ⟨(fetchById_never_raises_for_valid_args ["users"] ["jdoe"] (initSys [])).1
      (by decide) (by decide) (by decide),
   (fetchById_never_raises_for_valid_args ["users", "posts"] [] (initSys [])).2
      .emptyDocNames (by decide)⟩

/-- C6: `createDoc` resolves its write target in two stages. With the
delimiter check passed, a document-name list of exactly the template's
length resolves to that exact document; exactly on the length-mismatch
failure of that first stage (the `InvalidDocumentNamesError` class) it
falls back to collection resolution with the store-generated identifier,
which requires one name less than the template and otherwise propagates
its own length error. A delimiter-in-name violation is raised before the
two-stage resolution and propagates immediately — the fallback is never
attempted and the state is untouched. -/
theorem createDoc_two_stage_resolution :
    ∀ (cn names : List String) (genId : String) (data : DocData) (ow : Bool)
      (s : SysState),
      (names.length = cn.length →
        createDocResolve cn names genId = .ok (getDocSegments cn names)) ∧
      (names.length ≠ cn.length → names.length = cn.length - 1 →
        createDocResolve cn names genId
          = .ok (getCollectionSegments cn names ++ [genId])) ∧
      (names.length ≠ cn.length → names.length ≠ cn.length - 1 →
        createDocResolve cn names genId = .error .invalidCollectionNames) ∧
      (names.any (fun d => hasSlash d) = true →
        createDoc cn genId data ow names s = (.error .slashInDocName, s)) := by
  intro cn names genId data ow s
  refine ⟨createDocResolve_exact cn names genId,
          createDocResolve_generated cn names genId,
          createDocResolve_bad_length cn names genId, ?_⟩
  intro hsl
  simp [createDoc, hsl]

/-- Witness for C6: exact resolution on `["users"]`/`["jdoe"]`, generated
fallback on `["users", "posts"]`/`["jdoe"]`, propagated length error on a
three-name list, and a delimiter violation raised without fallback. -/
theorem createDoc_two_stage_resolution_witness :
    createDocResolve ["users"] ["jdoe"] "gen" = .ok ["users", "jdoe"] ∧
    createDocResolve ["users", "posts"] ["jdoe"] "gen"
      = .ok ["users", "jdoe", "posts", "gen"] ∧
    createDocResolve ["users", "posts"] ["a", "b", "c"] "gen"
      = .error .invalidCollectionNames ∧
    createDoc ["users", "posts"] "gen" [] true ["j/doe"] (initSys [])
      = (.error .slashInDocName, initSys []) :=
  ⟨(createDoc_two_stage_resolution ["users"] ["jdoe"] "gen" [] true (initSys [])).1
      (by decide),
   (createDoc_two_stage_resolution ["users", "posts"] ["jdoe"] "gen" [] true
      (initSys [])).2.1 (by decide) (by decide),
   (createDoc_two_stage_resolution ["users", "posts"] ["a", "b", "c"] "gen" [] true
      (initSys [])).2.2.1 (by decide) (by decide),
   (createDoc_two_stage_resolution ["users", "posts"] ["j/doe"] "gen" [] true
      (initSys [])).2.2.2 (by decide)⟩

theorem foldPrime_fetchLog (snap : List (String × DocData)) (c : CacheSt) :
    (snap.foldl (fun c pd => primeOp pd.1 pd.2 c) c).fetchLog = c.fetchLog := by
  induction snap generalizing c with
  | nil => rfl
  | cons pd rest ih =>
    simp only [List.foldl_cons]
    rw [ih]
    rfl

theorem foldPrime_lookup_notmem (snap : List (String × DocData)) (c : CacheSt)
    (p : String) (h : p ∉ snap.map Prod.fst) :
    alistGet (snap.foldl (fun c pd => primeOp pd.1 pd.2 c) c).entries p
      = alistGet c.entries p := by
  induction snap generalizing c with
  | nil => rfl
  | cons pd rest ih =>
    simp only [List.map_cons, List.mem_cons, not_or] at h
    simp only [List.foldl_cons]
    rw [ih _ h.2]
    simp [primeOp, alistGet, h.1]

theorem foldPrime_lookup_mem (snap : List (String × DocData)) (c : CacheSt)
    (p : String) (h : p ∈ snap.map Prod.fst) :
    ∃ v, alistGet (snap.foldl (fun c pd => primeOp pd.1 pd.2 c) c).entries p
        = some (.resolved v) ∧ (p, v) ∈ snap := by
  induction snap generalizing c with
  | nil => simp at h
  | cons pd rest ih =>
    by_cases hrest : p ∈ rest.map Prod.fst
    · obtain ⟨v, hv, hmem⟩ := ih (primeOp pd.1 pd.2 c) hrest
      exact ⟨v, by simpa [List.foldl_cons] using hv, List.mem_cons_of_mem _ hmem⟩
    · have hp : p = pd.1 := by
        simp only [List.map_cons, List.mem_cons] at h
        exact h.resolve_right hrest
      refine ⟨pd.2, ?_, ?_⟩
      · rw [List.foldl_cons, foldPrime_lookup_notmem rest _ p hrest]
        simp [primeOp, alistGet, hp]
      · rw [hp]
        exact List.mem_cons_self _ _

/-- C7: `fetchDocsByQuery` (valid, delimiter-free collection selector)
returns exactly the snapshot's documents in store-reported order, primes
the cache under each returned document's own path without issuing any
fetch, and a subsequent `fetchDocById` addressing any returned document
(its computed key equal to that document's path) is answered from the
cache: it returns a value primed from the snapshot and leaves the whole
state — in particular the fetch log and the store — unchanged. -/
theorem fetchByQuery_primes_results :
    ∀ (cn names : List String) (snap : List (String × DocData)) (s : SysState)
      (p : String) (names2 : List String),
      names.any (fun d => hasSlash d) = false →
      names.length = cn.length - 1 →
      p ∈ snap.map Prod.fst →
      0 < cn.length →
      names2.length = cn.length →
      names2.any (fun d => hasSlash d) = false →
      joinSlash (getDocSegments cn names2) = p →
      (fetchDocsByQuery cn names snap s).1 = .ok (snap.map (fun pd => pd.2)) ∧
      (fetchDocsByQuery cn names snap s).2.cache.fetchLog = s.cache.fetchLog ∧
      ∃ v, (p, v) ∈ snap ∧
        fetchDocById cn names2 (fetchDocsByQuery cn names snap s).2
          = (.ok (some v), (fetchDocsByQuery cn names snap s).2) := by
  intro cn names snap s p names2 hsl hlen hp hpos h2len h2sl hkey
  have hq : fetchDocsByQuery cn names snap s
      = (.ok (snap.map (fun pd => pd.2)),
         { s with cache := snap.foldl (fun c pd => primeOp pd.1 pd.2 c) s.cache }) := by
    simp [fetchDocsByQuery, hsl, checkValidCollectionSegments, hlen]
  refine ⟨by rw [hq], ?_, ?_⟩
  · rw [hq]
    exact foldPrime_fetchLog snap s.cache
  · obtain ⟨v, hv, hmem⟩ := foldPrime_lookup_mem snap s.cache p hp
    refine ⟨v, hmem, ?_⟩
    rw [hq]
    have h0 : ¬ names2.length = 0 := by omega
    have hck : checkValidDocumentSegments cn names2 = .ok () := by
      simp [checkValidDocumentSegments, h2len]
    have hs1 : (alistGet (snap.foldl (fun c pd => primeOp pd.1 pd.2 c) s.cache).entries p).isSome
        = true := by simp [hv]
    have hload : loadAwait (batchLoad cn s.store) p
          (snap.foldl (fun c pd => primeOp pd.1 pd.2 c) s.cache)
        = (.ok v, snap.foldl (fun c pd => primeOp pd.1 pd.2 c) s.cache) := by
      simp [loadAwait, loadOp, hs1, hv]
    simp [fetchDocById, h0, h2sl, hck, hkey, hload]

/-- Witness for C7: a two-document snapshot over `["users"]`; the
document at `users/jdoe` is primed and the subsequent `fetchDocById
"jdoe"` is served from cache with the state unchanged. -/
theorem fetchByQuery_primes_results_witness :
    (fetchDocsByQuery ["users"] []
        [("users/jdoe", [("firstName", "Jane"), ("_id", "jdoe")]),
         ("users/jsmith", [("firstName", "John"), ("_id", "jsmith")])]
        (initSys [])).1
      = .ok [[("firstName", "Jane"), ("_id", "jdoe")],
             [("firstName", "John"), ("_id", "jsmith")]] ∧
    (fetchDocsByQuery ["users"] []
        [("users/jdoe", [("firstName", "Jane"), ("_id", "jdoe")]),
         ("users/jsmith", [("firstName", "John"), ("_id", "jsmith")])]
        (initSys [])).2.cache.fetchLog = (initSys []).cache.fetchLog ∧
    ∃ v, ("users/jdoe", v) ∈
        [("users/jdoe", [("firstName", "Jane"), ("_id", "jdoe")]),
         ("users/jsmith", [("firstName", "John"), ("_id", "jsmith")])] ∧
      fetchDocById ["users"] ["jdoe"]
          (fetchDocsByQuery ["users"] []
            [("users/jdoe", [("firstName", "Jane"), ("_id", "jdoe")]),
             ("users/jsmith", [("firstName", "John"), ("_id", "jsmith")])]
            (initSys [])).2
        = (.ok (some v),
           (fetchDocsByQuery ["users"] []
             [("users/jdoe", [("firstName", "Jane"), ("_id", "jdoe")]),
              ("users/jsmith", [("firstName", "John"), ("_id", "jsmith")])]
             (initSys [])).2) :=
  fetchByQuery_primes_results ["users"] []
    [("users/jdoe", [("firstName", "Jane"), ("_id", "jdoe")]),
     ("users/jsmith", [("firstName", "John"), ("_id", "jsmith")])]
    (initSys []) "users/jdoe" ["jdoe"]
    (by decide) (by decide) (by decide) (by decide) (by decide) (by decide) (by decide)

/-- C2, evaluated at its failing input: in the batch
`["users/a", "users/b"]` over a store holding only `users/a`, the key
`users/a`'s own fetch succeeds, yet `batchLoad` — whose per-key promises
reject individually and are joined by `Promise.all` — rejects as a whole
with `users/b`'s error instead of returning a positional
value-or-`Error` list, and distributing that outcome rejects the sibling
`users/a`'s handle with `users/b`'s error. This contradicts `batchLoad`'s
own declared return type `ArrayLike<OutputDocumentData<T> | Error>`
(whose `Error` branch no code path can produce) and the per-position
unwrapping contract the cache expects. -/
theorem batchLoad_failure_rejects_siblings :
    batchLoadOne ["users"] [("users/a", [("x", "1")])] "users/a"
      = .ok [("x", "1"), ("_id", "a"), ("_path", "users/a")] ∧
    batchLoad ["users"] [("users/a", [("x", "1")])] ["users/a", "users/b"]
      = .error "Document users/b does not exist." ∧
    alistGet (flushOp (batchLoad ["users"] [("users/a", [("x", "1")])])
        (CacheSt.mk [("users/a", .pending), ("users/b", .pending)]
          ["users/a", "users/b"] [])).entries "users/a"
      = some (.rejected "Document users/b does not exist.") := by
  refine ⟨?_, ?_, ?_⟩ <;> decide

/-- C3 fails on the code as claimed: running the claim's own scenario —
template `["users"]`, `fetchDocById "jdoe"` on the empty store (which
returns absent), then `createDoc {firstName: Jane} true "jdoe"` on the
same instance — a subsequent `fetchDocById "jdoe"` still returns absent
(`.ok none`), not the record `{_id: jdoe, _path: users/jdoe,
firstName: Jane}`: the initial failed fetch left a cached rejection
which the read-back `load` inside `createDoc` is served from (it does
not prime), and the later fetch is served from it too. -/
theorem createDoc_readback_after_miss_cex :
    (fetchDocById ["users"] ["jdoe"] (initSys [])).1 = .ok none ∧
    (fetchDocById ["users"] ["jdoe"]
        (createDoc ["users"] "gen" [("firstName", "Jane")] true ["jdoe"]
          (fetchDocById ["users"] ["jdoe"] (initSys [])).2).2).1
      = .ok none ∧
    (.ok none : Except LoaderErr (Option DocData))
      ≠ .ok (some [("firstName", "Jane"), ("_id", "jdoe"), ("_path", "users/jdoe")]) := by
  refine ⟨?_, ?_, ?_⟩ <;> decide

/-- C3 amended: with template `["users"]`, `fetchDocById "jdoe"` on the
empty store returns absent and caches the rejection; after
`createDoc {firstName: Jane} true "jdoe"` on the same instance, the
read-back inside `createDoc` and a subsequent `fetchDocById "jdoe"` are
both served that cached rejection — they again return absent, with no
second store read (the fetch log stays at the one initial read). Only
without the prior failed fetch (fresh instance) does `createDoc` return
the record `{firstName: Jane, _id: jdoe, _path: users/jdoe}` and a
subsequent `fetchDocById "jdoe"` return it from cache with no state
change and no read beyond the read-back's single fetch. -/
theorem createDoc_readback_and_cache :
    ((fetchDocById ["users"] ["jdoe"] (initSys [])).1 = .ok none ∧
     (createDoc ["users"] "gen" [("firstName", "Jane")] true ["jdoe"]
        (fetchDocById ["users"] ["jdoe"] (initSys [])).2).1 = .ok none ∧
     (fetchDocById ["users"] ["jdoe"]
        (createDoc ["users"] "gen" [("firstName", "Jane")] true ["jdoe"]
          (fetchDocById ["users"] ["jdoe"] (initSys [])).2).2).1 = .ok none ∧
     (fetchDocById ["users"] ["jdoe"]
        (createDoc ["users"] "gen" [("firstName", "Jane")] true ["jdoe"]
          (fetchDocById ["users"] ["jdoe"] (initSys [])).2).2).2.cache.fetchLog
       = ["users/jdoe"]) ∧
    ((createDoc ["users"] "gen" [("firstName", "Jane")] true ["jdoe"] (initSys [])).1
       = .ok (some [("firstName", "Jane"), ("_id", "jdoe"), ("_path", "users/jdoe")]) ∧
     fetchDocById ["users"] ["jdoe"]
        (createDoc ["users"] "gen" [("firstName", "Jane")] true ["jdoe"] (initSys [])).2
       = (.ok (some [("firstName", "Jane"), ("_id", "jdoe"), ("_path", "users/jdoe")]),
          (createDoc ["users"] "gen" [("firstName", "Jane")] true ["jdoe"] (initSys [])).2) ∧
     (createDoc ["users"] "gen" [("firstName", "Jane")] true ["jdoe"]
        (initSys [])).2.cache.fetchLog = ["users/jdoe"]) := by
  refine ⟨⟨?_, ?_, ?_, ?_⟩, ⟨?_, ?_, ?_⟩⟩ <;> decide

/-- C9 fails on the code as claimed: with template `["users", "posts"]`,
`fetchDocById` with zero document names raises the generic
`Document names must be specified.` error, whereas the three-name call
raises the `InvalidDocumentNamesError` class (the spec's
`DocumentPathLengthMismatch`); they are not the same error class. -/
theorem fetchById_arity_errors_cex :
    (fetchDocById ["users", "posts"] [] (initSys [])).1 = .error .emptyDocNames ∧
    (fetchDocById ["users", "posts"] ["jdoe", "post1", "likes"] (initSys [])).1
      = .error .invalidDocumentNames ∧
    LoaderErr.emptyDocNames ≠ LoaderErr.invalidDocumentNames := by
  refine ⟨?_, ?_, ?_⟩ <;> decide

/-- C9 amended: with template `["users", "posts"]`, `fetchDocById` with
zero document names raises the `Document names must be specified.` error
(a distinct class checked before the length validation), while the
three-name call raises the `InvalidDocumentNamesError` length-mismatch
class; both are raised synchronously before any I/O — the state, in
particular the cache and its fetch log, is returned untouched. -/
theorem fetchById_arity_errors :
    fetchDocById ["users", "posts"] [] (initSys [])
      = (.error .emptyDocNames, initSys []) ∧
    fetchDocById ["users", "posts"] ["jdoe", "post1", "likes"] (initSys [])
      = (.error .invalidDocumentNames, initSys []) := by
  refine ⟨?_, ?_⟩ <;> decide

theorem alistGet_storeSet_self (st : Store) (path : String) (d : DocData) :
    alistGet (storeSet st path d) path = some d := by
  simp [storeSet, alistGet]

/-- C10 fails as universally stated: when the caller-supplied payload
itself contains an injected-field name, the stored field set differs
from the payload's. With payload `{_id: boom}`, `createDoc` stores the
empty field set at `users/jdoe` — the converter strips `_id` — which is
not the payload's field set `{_id}`. -/
theorem createDoc_payload_fieldset_cex :
    alistGet (createDoc ["users"] "g" [("_id", "boom")] true ["jdoe"]
        (initSys [])).2.store "users/jdoe" = some [] ∧
    fieldKeys ([] : DocData) ≠ fieldKeys [("_id", "boom")] := by
  refine ⟨?_, ?_⟩ <;> decide

/-- C10 amended: the injected fields are never persisted — for every
overwrite-mode `createDoc` call that resolves a write target (the
delimiter-free names resolving either to the exact document, names as
long as the template, or through the generated-ID fallback, one name
less) the stored document at the resolved path contains no `_id` and no
`_path` field, while every other payload field is stored unchanged;
hence the stored field set equals the caller-supplied payload's exactly
when the payload itself contains neither injected field. The
`_id`/`_path` seen on returned records are reattached by the read
converter (`fromFirestore`), not read from storage. -/
theorem createDoc_never_persists_injected_fields :
    ∀ (cn names segs : List String) (genId : String) (data : DocData) (s : SysState)
      (k i p : String),
      names.any (fun d => hasSlash d) = false →
      createDocResolve cn names genId = .ok segs →
      ∃ stored,
        alistGet (createDoc cn genId data true names s).2.store
            (joinSlash segs) = some stored ∧
        getField stored "_id" = none ∧
        getField stored "_path" = none ∧
        (k ≠ "_id" → k ≠ "_path" → getField stored k = getField data k) ∧
        getField (fromFirestore i p stored) "_id" = some i ∧
        getField (fromFirestore i p stored) "_path" = some p := by
  intro cn names segs genId data s k i p hsl hres
  refine ⟨toFirestore (setField (setField data "_id"
      (segs.getLastD "undefined")) "_path" (joinSlash segs)), ?_, ?_, ?_, ?_, ?_, ?_⟩
  · have hcd : (createDoc cn genId data true names s).2.store
        = storeSet s.store (joinSlash segs)
            (toFirestore (setField (setField data "_id"
              (segs.getLastD "undefined")) "_path" (joinSlash segs))) := by
      simp [createDoc, hsl, hres, fetchDocById_store_eq]
    rw [hcd, alistGet_storeSet_self]
  · simp only [toFirestore]
    rw [getField_removeField_ne _ _ _ (by decide), getField_removeField_self]
  · simp only [toFirestore]
    rw [getField_removeField_self]
  · intro hk1 hk2
    simp only [toFirestore]
    rw [getField_removeField_ne _ _ _ hk2, getField_removeField_ne _ _ _ hk1,
      getField_setField_ne _ _ _ _ hk2, getField_setField_ne _ _ _ _ hk1]
  · simp only [fromFirestore]
    rw [getField_setField_ne _ _ _ _ (by decide), getField_setField_self]
  · simp only [fromFirestore]
    rw [getField_setField_self]

/-- Witness for C10's amended statement on both write paths: the exact
document `users/jdoe` on template `["users"]`, and the generated-ID
fallback `users/jdoe/posts/gen` on template `["users", "posts"]` with
the single name `"jdoe"`; payload `{firstName: Jane}` in both. -/
theorem createDoc_never_persists_injected_fields_witness :
    (∃ stored,
      alistGet (createDoc ["users"] "g" [("firstName", "Jane")] true ["jdoe"]
          (initSys [])).2.store
          (joinSlash ["users", "jdoe"]) = some stored ∧
      getField stored "_id" = none ∧
      getField stored "_path" = none ∧
      ("firstName" ≠ "_id" → "firstName" ≠ "_path" →
        getField stored "firstName" = getField [("firstName", "Jane")] "firstName") ∧
      getField (fromFirestore "x" "y" stored) "_id" = some "x" ∧
      getField (fromFirestore "x" "y" stored) "_path" = some "y") ∧
    (∃ stored,
      alistGet (createDoc ["users", "posts"] "gen" [("firstName", "Jane")] true
          ["jdoe"] (initSys [])).2.store
          (joinSlash ["users", "jdoe", "posts", "gen"]) = some stored ∧
      getField stored "_id" = none ∧
      getField stored "_path" = none ∧
      ("firstName" ≠ "_id" → "firstName" ≠ "_path" →
        getField stored "firstName" = getField [("firstName", "Jane")] "firstName") ∧
      getField (fromFirestore "x" "y" stored) "_id" = some "x" ∧
      getField (fromFirestore "x" "y" stored) "_path" = some "y") :=
  ⟨createDoc_never_persists_injected_fields ["users"] ["jdoe"] ["users", "jdoe"]
     "g" [("firstName", "Jane")] (initSys []) "firstName" "x" "y"
     (by decide) (by decide),
   createDoc_never_persists_injected_fields ["users", "posts"] ["jdoe"]
     ["users", "jdoe", "posts", "gen"] "gen" [("firstName", "Jane")] (initSys [])
     "firstName" "x" "y" (by decide) (by decide)⟩

end DataLoaderFirestore
